import Mathlib

/-!
Verification of the vibe-cart backend (src/backend/server.js).

The server keeps a product catalog and per-user cart lines, served over
REST routes. It has two backends selected once at startup by the flag
`useDb`: a SQLite-backed one (`useDb = true`) and an in-memory fallback
(`useDb = false`). We embed both backends' behaviour as pure functions
over an explicit store state.

JavaScript numbers are modelled as `ℚ` where the code only produces
finite values, and as `Option ℚ` where the code can produce `NaN`
(`none` plays the role of `NaN`, arising from `undefined * qty`).
A JSON field that may be absent or non-numeric is an `Option`.
-/

/-- A catalog product: `{id, name, price, image}` (products table /
`mem.products`). Prices are JS numbers; the seed uses integers. -/
structure Product where
  id : String
  name : String
  price : ℚ
  image : String
deriving Repr, DecidableEq

/-- A cart line: `{userId, productId, qty}` (cart table / `mem.cart`).
`qty` is whatever number passed the route's validation. -/
structure CartLine where
  userId : String
  productId : String
  qty : ℚ
deriving Repr, DecidableEq

/-- A joined cart item as produced by `getCart`:
`{ id, name, price, image, qty }`.  In the in-memory backend a line whose
product is missing from the catalog yields `{ ...undefined, qty }`, i.e.
an object whose `id`/`name`/`price`/`image` are all `undefined`; we model
those four fields as `Option`s (`none` = `undefined`). -/
structure Item where
  id : Option String
  name : Option String
  price : Option ℚ
  image : Option String
  qty : ℚ
deriving Repr, DecidableEq

/-- The cart view `{ items, total }` returned by `getCart`.  `total` is
`none` when the JS computation yields `NaN`. -/
structure CartView where
  items : List Item
  total : Option ℚ
deriving Repr, DecidableEq

/-- A checkout receipt `{ id, total, items, timestamp }`. -/
structure Receipt where
  id : String
  total : Option ℚ
  items : List Item
  timestamp : String
deriving Repr, DecidableEq

/-- The store state shared by both backends: the products table
(`mem.products` resp. the SQLite `products` table, in insertion order)
and the cart lines (`mem.cart` resp. the `cart` table in rowid order). -/
structure Store where
  products : List Product
  cart : List CartLine
deriving Repr, DecidableEq

/-- `const DEMO_USER = 'demo'`. -/
def DEMO_USER : String := "demo"

/-- The seeded catalog `p1`..`p7` (identical in `initDb` and `mem.products`). -/
def seedProducts : List Product :=
  [ ⟨"p1", "Bluetooth Headphones", 1999, "🎧"⟩,
    ⟨"p2", "Wireless Mouse", 699, "🖱️"⟩,
    ⟨"p3", "Mechanical Keyboard", 3499, "⌨️"⟩,
    ⟨"p4", "USB-C Cable", 299, "🔌"⟩,
    ⟨"p5", "Portable SSD 500GB", 4999, "💾"⟩,
    ⟨"p6", "Smartwatch", 5999, "⌚"⟩,
    ⟨"p7", "Phone Stand", 249, "📱"⟩ ]

/-- The initial store: seeded catalog, empty cart. -/
def initStore : Store := ⟨seedProducts, []⟩

/-- `SELECT id FROM products WHERE id = ?` / first-match lookup. -/
def lookupProduct (ps : List Product) (pid : String) : Option Product :=
  ps.find? (fun p => p.id = pid)

/-- `new Map(mem.products.map(p => [p.id, p])).get(pid)`: a JS `Map`
built from an array keeps the LAST entry for a duplicated key. -/
def memLookup (ps : List Product) (pid : String) : Option Product :=
  ps.foldl (fun acc p => if p.id = pid then some p else acc) none

/-- JS `a * b` where `a` may be `undefined`: `undefined * b = NaN`. -/
def jsMul (a : Option ℚ) (b : ℚ) : Option ℚ :=
  a.map (fun x => x * b)

/-- JS `a + b` where either side may be `NaN`: `NaN` absorbs. -/
def jsAdd (a b : Option ℚ) : Option ℚ :=
  match a, b with
  | some x, some y => some (x + y)
  | _, _ => none

/-- `items.reduce((sum, it) => sum + it.price * it.qty, 0)`. -/
def totalOf (items : List Item) : Option ℚ :=
  items.foldl (fun sum it => jsAdd sum (jsMul it.price it.qty)) (some 0)

/-- The demo user's cart lines, in store order. -/
def demoLines (cart : List CartLine) : List CartLine :=
  cart.filter (fun c => c.userId = DEMO_USER)

/-- `getCart` when `useDb`: the SQL inner `JOIN products ON p.id =
c.productId WHERE c.userId = ?` — a line without a matching product
contributes no row (it is dropped). -/
def getCartDbItems (s : Store) : List Item :=
  (demoLines s.cart).filterMap (fun c =>
    (lookupProduct s.products c.productId).map (fun p =>
      ⟨some p.id, some p.name, some p.price, some p.image, c.qty⟩))

/-- `getCart` when `!useDb`: `mem.cart.filter(user).map(c =>
({...map.get(c.productId), qty: c.qty}))` — a line without a matching
product yields `{...undefined, qty}`, an item with only `qty`. -/
def getCartMemItems (s : Store) : List Item :=
  (demoLines s.cart).map (fun c =>
    match memLookup s.products c.productId with
    | some p => ⟨some p.id, some p.name, some p.price, some p.image, c.qty⟩
    | none => ⟨none, none, none, none, c.qty⟩)

/-- The `{items, total}` body produced by `getCart` for the active backend. -/
def getCartView (useDb : Bool) (s : Store) : CartView :=
  let items := if useDb then getCartDbItems s else getCartMemItems s
  ⟨items, totalOf items⟩

/-- The body of `POST /api/cart`: `const { productId, qty } = req.body`.
`none` models an absent field; for `qty`, also any non-number value. -/
structure PostBody where
  productId : Option String
  qty : Option ℚ
deriving Repr, DecidableEq

/-- JS truthiness test `!productId` for a string-or-absent field:
falsy when absent or the empty string. -/
def productIdFalsy : Option String → Bool
  | none => true
  | some s => s = ""

/-- `!productId || typeof qty !== 'number' || qty <= 0` — the route's
validation guard (true = reject with 400). -/
def postBodyInvalid (b : PostBody) : Bool :=
  productIdFalsy b.productId ||
    match b.qty with
    | none => true
    | some q => q ≤ 0

/-- Replace the qty of the first cart line matching `(DEMO_USER, pid)`;
append a new line if none matches.  This is both the SQLite branch
(`SELECT` first match, `UPDATE ... WHERE id = existing.id`, else
`INSERT`) and the in-memory branch (`findIndex`, assign, else `push`). -/
def upsertLine (cart : List CartLine) (pid : String) (q : ℚ) : List CartLine :=
  match cart with
  | [] => [⟨DEMO_USER, pid, q⟩]
  | c :: rest =>
    if c.userId = DEMO_USER ∧ c.productId = pid then
      ⟨c.userId, c.productId, q⟩ :: rest
    else
      c :: upsertLine rest pid q

/-- `DELETE FROM cart WHERE userId = ? AND productId = ?` /
`mem.cart.filter(c => !(c.userId === DEMO_USER && c.productId === productId))`. -/
def removeLine (cart : List CartLine) (pid : String) : List CartLine :=
  cart.filter (fun c => ¬(c.userId = DEMO_USER ∧ c.productId = pid))

/-- `DELETE FROM cart WHERE userId = ?` /
`mem.cart.filter(c => c.userId !== DEMO_USER)` (checkout's clear step). -/
def clearLines (cart : List CartLine) : List CartLine :=
  cart.filter (fun c => c.userId ≠ DEMO_USER)

/-- A response sent to the client, with its status and body. -/
inductive Response where
  | ok (view : CartView)
  | receiptOk (r : Receipt)
  | badRequest (error : String)
  | notFound (error : String)
deriving Repr, DecidableEq

/-- The HTTP status code of a response. -/
def Response.status : Response → Nat
  | .ok _ => 200
  | .receiptOk _ => 200
  | .badRequest _ => 400
  | .notFound _ => 404

/-- `POST /api/cart`: validate, then (durable backend) check the product
exists and upsert, or (in-memory backend) upsert without any catalog
check; on success respond with `getCart` of the new state. -/
def postCart (useDb : Bool) (body : PostBody) (s : Store) : Response × Store :=
  if postBodyInvalid body then
    (.badRequest "productId and qty>0 required", s)
  else
    let pid := body.productId.getD ""
    let q := body.qty.getD 0
    if useDb then
      if (lookupProduct s.products pid).isSome then
        let s' : Store := ⟨s.products, upsertLine s.cart pid q⟩
        (.ok (getCartView useDb s'), s')
      else
        (.notFound "Product not found", s)
    else
      let s' : Store := ⟨s.products, upsertLine s.cart pid q⟩
      (.ok (getCartView useDb s'), s')

/-- `DELETE /api/cart/:id`: delete any matching line (no-op when none),
respond with `getCart` of the new state. -/
def deleteCart (useDb : Bool) (pid : String) (s : Store) : Response × Store :=
  let s' : Store := ⟨s.products, removeLine s.cart pid⟩
  (.ok (getCartView useDb s'), s')

/-- `GET /api/cart`: respond with `getCart`, leaving the state alone. -/
def getCartRoute (useDb : Bool) (s : Store) : Response × Store :=
  (.ok (getCartView useDb s), s)

/-- `POST /api/checkout`: snapshot the cart view, build the receipt from
it (`rid` models the random id suffix, `ts` the wall-clock timestamp),
then clear the demo user's lines. -/
def checkoutRoute (useDb : Bool) (rid ts : String) (s : Store) : Response × Store :=
  let cart := getCartView useDb s
  let receipt : Receipt := ⟨"rcpt_" ++ rid, cart.total, cart.items, ts⟩
  let s' : Store := ⟨s.products, clearLines s.cart⟩
  (.receiptOk receipt, s')

/-- One client operation against the cart API. -/
inductive Op where
  | post (body : PostBody)
  | get
  | remove (pid : String)
  | checkout (rid ts : String)
deriving Repr, DecidableEq

/-- Dispatch one operation on the active backend. -/
def step (useDb : Bool) (op : Op) (s : Store) : Response × Store :=
  match op with
  | .post body => postCart useDb body s
  | .get => getCartRoute useDb s
  | .remove pid => deleteCart useDb pid s
  | .checkout rid ts => checkoutRoute useDb rid ts s

/-- Run a sequence of operations, collecting the responses. -/
def runSeq (useDb : Bool) (ops : List Op) (s : Store) : List Response × Store :=
  match ops with
  | [] => ([], s)
  | op :: rest =>
    ((step useDb op s).1 :: (runSeq useDb rest (step useDb op s).2).1,
      (runSeq useDb rest (step useDb op s).2).2)

/-! ## Invariants and well-formedness predicates -/

/-- The upsert key of a cart line: `(userId, productId)`. -/
def lineKey (c : CartLine) : String × String := (c.userId, c.productId)

/-- The cart's uniqueness invariant: at most one line per
`(userId, productId)` pair (the SQLite `UNIQUE(userId, productId)`
constraint). -/
def UniqKeys (cart : List CartLine) : Prop := (cart.map lineKey).Nodup

/-- Catalog ids are pairwise distinct (the `PRIMARY KEY` constraint;
also true of the in-memory seed). -/
def NodupIds (ps : List Product) : Prop := (ps.map Product.id).Nodup

/-- A store whose catalog ids are distinct and whose demo-user cart
lines all reference an existing product. -/
def GoodState (s : Store) : Prop :=
  NodupIds s.products ∧
    ∀ c ∈ s.cart, c.userId = DEMO_USER → (lookupProduct s.products c.productId).isSome

/-- An operation that never upserts an unknown product id: either the
body fails validation anyway, or its product id is in the catalog. -/
def GoodOp (ps : List Product) : Op → Prop
  | .post b => postBodyInvalid b = true ∨ (lookupProduct ps (b.productId.getD "")).isSome = true
  | _ => True

instance : DecidablePred UniqKeys := fun cart =>
  inferInstanceAs (Decidable (cart.map lineKey).Nodup)

instance : DecidablePred NodupIds := fun ps =>
  inferInstanceAs (Decidable (ps.map Product.id).Nodup)

instance : DecidablePred GoodState := fun _s =>
  inferInstanceAs (Decidable (_ ∧ _))

instance (ps : List Product) : DecidablePred (GoodOp ps) := fun op =>
  match op with
  | .post _b => inferInstanceAs (Decidable (_ ∨ _))
  | .get => inferInstanceAs (Decidable True)
  | .remove _ => inferInstanceAs (Decidable True)
  | .checkout _ _ => inferInstanceAs (Decidable True)

/-! ## Lookup lemmas -/

/-- Folding `memLookup`'s accumulator over products none of which match
leaves the accumulator unchanged. -/
lemma memLookup_foldl_no_match (ps : List Product) (pid : String) (acc : Option Product)
    (h : ∀ p ∈ ps, p.id ≠ pid) :
    ps.foldl (fun acc p => if p.id = pid then some p else acc) acc = acc := by
  induction ps generalizing acc with
  | nil => rfl
  | cons p rest ih =>
    simp only [List.foldl_cons]
    rw [if_neg (h p (List.mem_cons_self _ _))]
    exact ih acc (fun q hq => h q (List.mem_cons_of_mem _ hq))

/-- With distinct catalog ids, the JS `Map` lookup (last match wins)
agrees with the SQL first-match lookup. -/
lemma memLookup_eq_lookupProduct (ps : List Product) (pid : String)
    (h : NodupIds ps) : memLookup ps pid = lookupProduct ps pid := by
  induction ps with
  | nil => rfl
  | cons p rest ih =>
    have hnd : p.id ∉ rest.map Product.id ∧ NodupIds rest := by
      simpa [NodupIds] using h
    by_cases hp : p.id = pid
    · have hrest : ∀ q ∈ rest, q.id ≠ pid := by
        intro q hq hqe
        exact hnd.1 (hp ▸ hqe ▸ List.mem_map_of_mem Product.id hq)
      simp only [memLookup, lookupProduct, List.foldl_cons, List.find?_cons]
      rw [if_pos hp]
      rw [memLookup_foldl_no_match rest pid (some p) hrest]
      simp [hp]
    · simp only [memLookup, lookupProduct, List.foldl_cons, List.find?_cons]
      rw [if_neg hp]
      have := ih hnd.2
      simp only [memLookup, lookupProduct] at this
      rw [this]
      simp [hp]

/-- A lookup hit means the id is absent from no catalog:
`lookupProduct` is `none` iff no product has the id. -/
lemma lookupProduct_eq_none_iff (ps : List Product) (pid : String) :
    lookupProduct ps pid = none ↔ ∀ p ∈ ps, p.id ≠ pid := by
  simp [lookupProduct, List.find?_eq_none]

/-! ## Join lemmas -/

/-- Every line of `demoLines` belongs to the cart and is the demo
user's. -/
lemma mem_demoLines {cart : List CartLine} {c : CartLine}
    (h : c ∈ demoLines cart) : c ∈ cart ∧ c.userId = DEMO_USER := by
  have := List.mem_filter.mp h
  exact ⟨this.1, by simpa using this.2⟩

/-- On a list of lines whose products all resolve, the SQL-join shape
(`filterMap`) agrees with the in-memory map-over-lines shape. -/
lemma join_lists_eq (ps : List Product) (hnd : NodupIds ps) (l : List CartLine)
    (hsome : ∀ c ∈ l, (lookupProduct ps c.productId).isSome) :
    l.filterMap (fun c =>
      (lookupProduct ps c.productId).map (fun p =>
        Item.mk (some p.id) (some p.name) (some p.price) (some p.image) c.qty)) =
    l.map (fun c =>
      match memLookup ps c.productId with
      | some p => Item.mk (some p.id) (some p.name) (some p.price) (some p.image) c.qty
      | none => Item.mk none none none none c.qty) := by
  induction l with
  | nil => rfl
  | cons c rest ih =>
    have hc := hsome c (List.mem_cons_self _ _)
    obtain ⟨p, hp⟩ := Option.isSome_iff_exists.mp hc
    simp only [List.filterMap_cons, List.map_cons]
    rw [memLookup_eq_lookupProduct ps c.productId hnd, hp]
    simp only [Option.map_some']
    rw [ih (fun c hc => hsome c (List.mem_cons_of_mem _ hc))]

/-- When every demo line's product resolves, the two backends' joins
produce the same items. -/
lemma getCartItems_eq (s : Store) (hs : GoodState s) :
    getCartDbItems s = getCartMemItems s := by
  unfold getCartDbItems getCartMemItems
  apply join_lists_eq s.products hs.1
  intro c hc
  obtain ⟨hin, hu⟩ := mem_demoLines hc
  exact hs.2 c hin hu

/-- With a good state, the two backends render the same cart view. -/
lemma getCartView_eq (s : Store) (hs : GoodState s) :
    getCartView true s = getCartView false s := by
  simp [getCartView, getCartItems_eq s hs]

/-! ## Upsert lemmas -/

/-- Members of an upserted cart are old lines or the upserted line. -/
lemma mem_upsertLine {cart : List CartLine} {pid : String} {q : ℚ} {c : CartLine}
    (h : c ∈ upsertLine cart pid q) :
    c ∈ cart ∨ c = ⟨DEMO_USER, pid, q⟩ := by
  induction cart with
  | nil => simpa [upsertLine] using h
  | cons d rest ih =>
    by_cases hd : d.userId = DEMO_USER ∧ d.productId = pid
    · rw [upsertLine, if_pos hd] at h
      rcases List.mem_cons.mp h with h | h
      · right
        rw [h, hd.1, hd.2]
      · exact Or.inl (List.mem_cons_of_mem _ h)
    · rw [upsertLine, if_neg hd] at h
      rcases List.mem_cons.mp h with h | h
      · exact Or.inl (h ▸ List.mem_cons_self _ _)
      · rcases ih h with h | h
        · exact Or.inl (List.mem_cons_of_mem _ h)
        · exact Or.inr h

/-- Upserting does not touch lines of other users: the sublist of
non-demo lines is unchanged. -/
lemma upsertLine_filter_other (cart : List CartLine) (pid : String) (q : ℚ) :
    (upsertLine cart pid q).filter (fun c => c.userId ≠ DEMO_USER) =
      cart.filter (fun c => c.userId ≠ DEMO_USER) := by
  induction cart with
  | nil => simp [upsertLine, DEMO_USER]
  | cons d rest ih =>
    by_cases hd : d.userId = DEMO_USER ∧ d.productId = pid
    · rw [upsertLine, if_pos hd]
      simp [List.filter_cons, hd.1]
    · rw [upsertLine, if_neg hd]
      simp only [List.filter_cons]
      rw [ih]

/-- The keys of an upserted cart: replacing preserves the key list;
inserting appends the new key. -/
lemma keys_upsertLine (cart : List CartLine) (pid : String) (q : ℚ) :
    (upsertLine cart pid q).map lineKey = cart.map lineKey ∨
    (upsertLine cart pid q).map lineKey = cart.map lineKey ++ [(DEMO_USER, pid)] := by
  induction cart with
  | nil => right; simp [upsertLine, lineKey]
  | cons d rest ih =>
    by_cases hd : d.userId = DEMO_USER ∧ d.productId = pid
    · left
      rw [upsertLine, if_pos hd]
      simp [lineKey]
    · rw [upsertLine, if_neg hd]
      rcases ih with ih | ih
      · left
        simp only [List.map_cons, ih]
      · right
        simp only [List.map_cons, ih, List.cons_append]

/-- Upserting preserves the uniqueness invariant. -/
lemma UniqKeys_upsertLine (cart : List CartLine) (pid : String) (q : ℚ)
    (h : UniqKeys cart) : UniqKeys (upsertLine cart pid q) := by
  induction cart with
  | nil => simp [UniqKeys, upsertLine]
  | cons d rest ih =>
    have hnd : lineKey d ∉ rest.map lineKey ∧ UniqKeys rest := by
      simpa [UniqKeys] using h
    by_cases hd : d.userId = DEMO_USER ∧ d.productId = pid
    · rw [UniqKeys, upsertLine, if_pos hd]
      simp only [List.map_cons, List.nodup_cons]
      exact ⟨hnd.1, hnd.2⟩
    · rw [UniqKeys, upsertLine, if_neg hd]
      simp only [List.map_cons, List.nodup_cons]
      refine ⟨?_, ih hnd.2⟩
      intro hmem
      rcases keys_upsertLine rest pid q with hk | hk
      · exact hnd.1 (hk ▸ hmem)
      · rw [hk, List.mem_append] at hmem
        rcases hmem with hmem | hmem
        · exact hnd.1 hmem
        · apply hd
          have : lineKey d = (DEMO_USER, pid) := by simpa using hmem
          exact ⟨congrArg Prod.fst this, congrArg Prod.snd this⟩

/-- If no line of `cart` matches `(DEMO_USER, pid)`, filtering for that
key yields nothing. -/
lemma filter_key_eq_nil {cart : List CartLine} {pid : String}
    (h : ∀ c ∈ cart, ¬(c.userId = DEMO_USER ∧ c.productId = pid)) :
    cart.filter (fun c => c.userId = DEMO_USER ∧ c.productId = pid) = [] := by
  rw [List.filter_eq_nil_iff]
  intro c hc
  simpa using h c hc

/-- After an upsert, the lines matching `(DEMO_USER, pid)` are exactly
the single upserted line (given the uniqueness invariant). -/
lemma upsertLine_filter_key (cart : List CartLine) (pid : String) (q : ℚ)
    (h : UniqKeys cart) :
    (upsertLine cart pid q).filter
        (fun c => c.userId = DEMO_USER ∧ c.productId = pid) =
      [⟨DEMO_USER, pid, q⟩] := by
  induction cart with
  | nil => simp [upsertLine, List.filter_cons, DEMO_USER]
  | cons d rest ih =>
    have hnd : lineKey d ∉ rest.map lineKey ∧ UniqKeys rest := by
      simpa [UniqKeys] using h
    by_cases hd : d.userId = DEMO_USER ∧ d.productId = pid
    · rw [upsertLine, if_pos hd]
      have hrest : ∀ c ∈ rest, ¬(c.userId = DEMO_USER ∧ c.productId = pid) := by
        intro c hc hcontra
        apply hnd.1
        have : lineKey c = lineKey d := by
          simp [lineKey, hcontra.1, hcontra.2, hd.1, hd.2]
        exact this ▸ List.mem_map_of_mem lineKey hc
      rw [List.filter_cons]
      simp only [hd.1, hd.2, decide_True, and_self, if_pos]
      rw [filter_key_eq_nil hrest]
    · rw [upsertLine, if_neg hd, List.filter_cons]
      have : ¬(d.userId = DEMO_USER ∧ d.productId = pid) := hd
      simp only [decide_eq_true_eq]
      rw [if_neg (by simpa using this)]
      exact ih hnd.2

/-- Upserting the same `(pid, q)` twice is the same as once. -/
lemma upsertLine_idem (cart : List CartLine) (pid : String) (q : ℚ) :
    upsertLine (upsertLine cart pid q) pid q = upsertLine cart pid q := by
  induction cart with
  | nil => simp [upsertLine, DEMO_USER]
  | cons d rest ih =>
    by_cases hd : d.userId = DEMO_USER ∧ d.productId = pid
    · rw [upsertLine, if_pos hd]
      rw [upsertLine, if_pos hd]
    · rw [upsertLine, if_neg hd]
      rw [upsertLine, if_neg hd, ih]

/-! ## Filter lemmas for remove and clear -/

/-- Removing a key keeps the non-demo lines unchanged. -/
lemma removeLine_filter_other (cart : List CartLine) (pid : String) :
    (removeLine cart pid).filter (fun c => c.userId ≠ DEMO_USER) =
      cart.filter (fun c => c.userId ≠ DEMO_USER) := by
  unfold removeLine
  rw [List.filter_filter]
  apply List.filter_congr
  intro c _
  by_cases hu : c.userId = DEMO_USER <;> simp [hu]

/-- Clearing the demo cart keeps the non-demo lines unchanged. -/
lemma clearLines_filter_other (cart : List CartLine) :
    (clearLines cart).filter (fun c => c.userId ≠ DEMO_USER) =
      cart.filter (fun c => c.userId ≠ DEMO_USER) := by
  unfold clearLines
  rw [List.filter_filter]
  apply List.filter_congr
  intro c _
  by_cases hu : c.userId = DEMO_USER <;> simp [hu]

/-- A filtered cart keeps the uniqueness invariant. -/
lemma UniqKeys_filter (cart : List CartLine) (p : CartLine → Bool)
    (h : UniqKeys cart) : UniqKeys (cart.filter p) := by
  unfold UniqKeys at *
  exact (List.Sublist.map lineKey (List.filter_sublist cart)).nodup h

/-! ## Route equation lemmas -/

/-- A failed validation rejects with 400 and leaves the state alone. -/
lemma postCart_invalid (u : Bool) (b : PostBody) (s : Store)
    (h : postBodyInvalid b = true) :
    postCart u b s = (.badRequest "productId and qty>0 required", s) := by
  simp [postCart, h]

/-- Durable upsert of a known product id. -/
lemma postCart_db_found (b : PostBody) (s : Store)
    (h : postBodyInvalid b = false)
    (hf : (lookupProduct s.products (b.productId.getD "")).isSome = true) :
    postCart true b s =
      (.ok (getCartView true
          ⟨s.products, upsertLine s.cart (b.productId.getD "") (b.qty.getD 0)⟩),
        ⟨s.products, upsertLine s.cart (b.productId.getD "") (b.qty.getD 0)⟩) := by
  simp [postCart, h, hf]

/-- Durable upsert of an unknown product id: 404, state untouched. -/
lemma postCart_db_notFound (b : PostBody) (s : Store)
    (h : postBodyInvalid b = false)
    (hf : lookupProduct s.products (b.productId.getD "") = none) :
    postCart true b s = (.notFound "Product not found", s) := by
  simp [postCart, h, hf]

/-- In-memory upsert: no catalog check at all. -/
lemma postCart_mem (b : PostBody) (s : Store)
    (h : postBodyInvalid b = false) :
    postCart false b s =
      (.ok (getCartView false
          ⟨s.products, upsertLine s.cart (b.productId.getD "") (b.qty.getD 0)⟩),
        ⟨s.products, upsertLine s.cart (b.productId.getD "") (b.qty.getD 0)⟩) := by
  simp [postCart, h]

/-! ## State preservation -/

/-- Upserting a resolvable product id preserves state goodness. -/
lemma GoodState_upsert (s : Store) (pid : String) (q : ℚ)
    (hs : GoodState s) (hpid : (lookupProduct s.products pid).isSome) :
    GoodState ⟨s.products, upsertLine s.cart pid q⟩ := by
  refine ⟨hs.1, ?_⟩
  intro c hc hu
  rcases mem_upsertLine hc with h | h
  · exact hs.2 c h hu
  · rw [h]
    exact hpid

/-- Filtering the cart preserves state goodness. -/
lemma GoodState_filter (s : Store) (p : CartLine → Bool) (hs : GoodState s) :
    GoodState ⟨s.products, s.cart.filter p⟩ :=
  ⟨hs.1, fun c hc hu => hs.2 c (List.mem_filter.mp hc).1 hu⟩

/-- No route ever writes the catalog. -/
lemma step_products (u : Bool) (op : Op) (s : Store) :
    (step u op s).2.products = s.products := by
  cases op with
  | post body =>
    by_cases hv : postBodyInvalid body = true
    · rw [step, postCart_invalid u body s hv]
    · cases u
      · rw [step, postCart_mem body s (Bool.not_eq_true _ ▸ hv)]
      · rcases hopt : lookupProduct s.products (body.productId.getD "") with _ | p
        · rw [step, postCart_db_notFound body s (Bool.not_eq_true _ ▸ hv) hopt]
        · rw [step, postCart_db_found body s (Bool.not_eq_true _ ▸ hv) (by simp [hopt])]
  | get => rfl
  | remove pid => rfl
  | checkout rid ts => rfl

/-- Every step on a good state with a good operation lands in a good
state, on either backend. -/
lemma step_good (u : Bool) (op : Op) (s : Store)
    (hs : GoodState s) (ho : GoodOp s.products op) :
    GoodState (step u op s).2 := by
  cases op with
  | post body =>
    by_cases hv : postBodyInvalid body = true
    · rw [step, postCart_invalid u body s hv]
      exact hs
    · have hf : (lookupProduct s.products (body.productId.getD "")).isSome = true := by
        rcases ho with h | h
        · exact absurd h hv
        · exact h
      cases u
      · rw [step, postCart_mem body s (Bool.not_eq_true _ ▸ hv)]
        exact GoodState_upsert s _ _ hs hf
      · rw [step, postCart_db_found body s (Bool.not_eq_true _ ▸ hv) hf]
        exact GoodState_upsert s _ _ hs hf
  | get => exact hs
  | remove pid => exact GoodState_filter s _ hs
  | checkout rid ts => exact GoodState_filter s _ hs

/-- One good operation on a good state behaves identically on the
durable and the in-memory backend: same response, same new state. -/
lemma step_eq (op : Op) (s : Store)
    (hs : GoodState s) (ho : GoodOp s.products op) :
    step true op s = step false op s := by
  cases op with
  | post body =>
    by_cases hv : postBodyInvalid body = true
    · rw [step, step, postCart_invalid true body s hv, postCart_invalid false body s hv]
    · have hf : (lookupProduct s.products (body.productId.getD "")).isSome = true := by
        rcases ho with h | h
        · exact absurd h hv
        · exact h
      rw [step, step, postCart_db_found body s (Bool.not_eq_true _ ▸ hv) hf,
        postCart_mem body s (Bool.not_eq_true _ ▸ hv)]
      rw [getCartView_eq _ (GoodState_upsert s _ _ hs hf)]
  | get =>
    rw [step, step, getCartRoute, getCartRoute, getCartView_eq s hs]
  | remove pid =>
    rw [step, step, deleteCart, deleteCart,
      getCartView_eq ⟨s.products, removeLine s.cart pid⟩
        (GoodState_filter s _ hs)]
  | checkout rid ts =>
    rw [step, step, checkoutRoute, checkoutRoute, getCartView_eq s hs]

/-- A whole sequence of good operations behaves identically on the two
backends, starting from any good state. -/
lemma runSeq_eq (ops : List Op) (s : Store)
    (hs : GoodState s) (ho : ∀ op ∈ ops, GoodOp s.products op) :
    runSeq true ops s = runSeq false ops s := by
  induction ops generalizing s with
  | nil => rfl
  | cons op rest ih =>
    have h1 := step_eq op s hs (ho op (List.mem_cons_self _ _))
    have hs' : GoodState (step false op s).2 :=
      step_good false op s hs (ho op (List.mem_cons_self _ _))
    have hp : (step false op s).2.products = s.products := step_products false op s
    have ho' : ∀ o ∈ rest, GoodOp (step false op s).2.products o := by
      intro o homem
      rw [hp]
      exact ho o (List.mem_cons_of_mem _ homem)
    simp only [runSeq]
    rw [h1, ih (step false op s).2 hs' ho']

/-! ## Further helper lemmas -/

/-- The upserted line is in the upserted cart. -/
lemma upsertLine_mem_self (cart : List CartLine) (pid : String) (q : ℚ) :
    CartLine.mk DEMO_USER pid q ∈ upsertLine cart pid q := by
  induction cart with
  | nil => simp [upsertLine]
  | cons d rest ih =>
    by_cases hd : d.userId = DEMO_USER ∧ d.productId = pid
    · rw [upsertLine, if_pos hd, hd.1, hd.2]
      exact List.mem_cons_self _ _
    · rw [upsertLine, if_neg hd]
      exact List.mem_cons_of_mem _ ih

/-- After checkout's clear, the demo user has no lines left. -/
lemma demoLines_clearLines (cart : List CartLine) :
    demoLines (clearLines cart) = [] := by
  unfold demoLines clearLines
  rw [List.filter_filter, List.filter_eq_nil_iff]
  intro c _
  by_cases hu : c.userId = DEMO_USER <;> simp [hu]

/-- A store with no demo lines renders the empty view with total 0. -/
lemma getCartView_of_demoLines_nil (u : Bool) (s : Store)
    (h : demoLines s.cart = []) : getCartView u s = ⟨[], some 0⟩ := by
  cases u <;>
    simp [getCartView, getCartDbItems, getCartMemItems, h, totalOf]

/-- Once an item with an undefined price is in the list, the JS total
is `NaN`: the fold is absorbed by `none`. -/
lemma totalOf_foldl_none (items : List Item) :
    items.foldl (fun sum it => jsAdd sum (jsMul it.price it.qty)) none = none := by
  induction items with
  | nil => rfl
  | cons it rest ih =>
    simp only [List.foldl_cons]
    have : jsAdd none (jsMul it.price it.qty) = none := rfl
    rw [this, ih]

/-- Splitting the fold of `totalOf` across an append. -/
lemma totalOf_foldl_append (l1 l2 : List Item) (acc : Option ℚ) :
    (l1 ++ l2).foldl (fun sum it => jsAdd sum (jsMul it.price it.qty)) acc =
      l2.foldl (fun sum it => jsAdd sum (jsMul it.price it.qty))
        (l1.foldl (fun sum it => jsAdd sum (jsMul it.price it.qty)) acc) :=
  List.foldl_append _ _ _ _

/-- An item with an undefined price anywhere in the list makes the
whole total `NaN`. -/
lemma totalOf_eq_none_of_mem (items : List Item) (it : Item)
    (hmem : it ∈ items) (hprice : it.price = none) :
    totalOf items = none := by
  obtain ⟨l1, l2, rfl⟩ := List.append_of_mem hmem
  unfold totalOf
  rw [totalOf_foldl_append]
  simp only [List.foldl_cons]
  have h1 : ∀ a : Option ℚ, jsAdd a (jsMul it.price it.qty) = none := by
    intro a
    rw [hprice]
    cases a <;> rfl
  rw [h1, totalOf_foldl_none]

/-- When every price is defined, the JS fold computes the exact
rational sum `Σ price_i * qty_i`. -/
lemma totalOf_eq_sum (items : List Item)
    (h : ∀ it ∈ items, it.price.isSome) :
    totalOf items = some ((items.map (fun it => it.price.getD 0 * it.qty)).sum) := by
  unfold totalOf
  suffices hgen : ∀ acc : ℚ,
      items.foldl (fun sum it => jsAdd sum (jsMul it.price it.qty)) (some acc) =
        some (acc + (items.map (fun it => it.price.getD 0 * it.qty)).sum) by
    simpa using hgen 0
  induction items with
  | nil => intro acc; simp
  | cons it rest ih =>
    intro acc
    have hit := h it (List.mem_cons_self _ _)
    obtain ⟨p, hp⟩ := Option.isSome_iff_exists.mp hit
    simp only [List.foldl_cons, List.map_cons, List.sum_cons]
    have : jsAdd (some acc) (jsMul it.price it.qty) = some (acc + p * it.qty) := by
      rw [hp]; rfl
    rw [this, ih (fun i hi => h i (List.mem_cons_of_mem _ hi))]
    rw [hp]
    simp
    ring

/-- Removing the lines of a key whose join image is `none` does not
change a `filterMap` join over the cart. -/
lemma filterMap_removeLine (pid : String) (f : CartLine → Option Item)
    (hf : ∀ c : CartLine, c.userId = DEMO_USER → c.productId = pid → f c = none)
    (m : List CartLine) :
    (removeLine m pid).filterMap f = m.filterMap f := by
  induction m with
  | nil => rfl
  | cons c rest ih =>
    by_cases hkey : c.userId = DEMO_USER ∧ c.productId = pid
    · have h1 : removeLine (c :: rest) pid = removeLine rest pid := by
        simp [removeLine, List.filter_cons, hkey.1, hkey.2]
      rw [h1, ih, List.filterMap_cons, hf c hkey.1 hkey.2]
    · have h1 : removeLine (c :: rest) pid = c :: removeLine rest pid := by
        simp [removeLine, List.filter_cons, hkey]
      rw [h1]
      rcases hfc : f c with _ | v <;> simp [List.filterMap_cons, hfc, ih]

/-- Dropping the lines of an unresolvable product id does not change
the durable backend's items: the SQL join already drops them. -/
lemma getCartDbItems_removeLine (s : Store) (pid : String)
    (hmiss : lookupProduct s.products pid = none) :
    getCartDbItems ⟨s.products, removeLine s.cart pid⟩ = getCartDbItems s := by
  show (demoLines (removeLine s.cart pid)).filterMap _ =
    (demoLines s.cart).filterMap _
  have hcomm : demoLines (removeLine s.cart pid) =
      removeLine (demoLines s.cart) pid := by
    unfold demoLines removeLine
    exact List.filter_comm _ _ _
  rw [hcomm]
  apply filterMap_removeLine
  intro c _ hpid
  rw [hpid, hmiss]
  rfl

/-- Every operation preserves the `(userId, productId)` uniqueness
invariant, on either backend. -/
lemma UniqKeys_step (u : Bool) (op : Op) (s : Store)
    (h : UniqKeys s.cart) : UniqKeys (step u op s).2.cart := by
  cases op with
  | post body =>
    by_cases hv : postBodyInvalid body = true
    · rw [step, postCart_invalid u body s hv]
      exact h
    · cases u
      · rw [step, postCart_mem body s (Bool.not_eq_true _ ▸ hv)]
        exact UniqKeys_upsertLine _ _ _ h
      · rcases hopt : lookupProduct s.products (body.productId.getD "") with _ | p
        · rw [step, postCart_db_notFound body s (Bool.not_eq_true _ ▸ hv) hopt]
          exact h
        · rw [step, postCart_db_found body s (Bool.not_eq_true _ ▸ hv) (by simp [hopt])]
          exact UniqKeys_upsertLine _ _ _ h
  | get => exact h
  | remove pid => exact UniqKeys_filter _ _ h
  | checkout rid ts => exact UniqKeys_filter _ _ h

/-! ## Claim C1 -/

/-- Claim C1 (counterexample): with the in-memory backend active, an
upsert of the unknown product id `"zz"` does NOT fail with 404: it
answers 200 and mutates the cart store, refuting the claim's
"in whichever backend is active". -/
theorem upsert_unknown_pid_mem_accepts :
    (postCart false ⟨some "zz", some 1⟩ initStore).1.status = 200 ∧
    (postCart false ⟨some "zz", some 1⟩ initStore).2 ≠ initStore ∧
    (postCart false ⟨some "zz", some 1⟩ initStore).2.cart =
      [⟨DEMO_USER, "zz", 1⟩] := by
  decide

/-- Claim C1 (amended): for a body passing validation whose productId
references no product, the DURABLE backend fails with 404 and leaves
the store unchanged, while the IN-MEMORY backend performs no catalog
check: it answers 200 and inserts the dangling line. -/
theorem upsert_unknown_pid_backend_split (s : Store) (b : PostBody)
    (hv : postBodyInvalid b = false)
    (hu : lookupProduct s.products (b.productId.getD "") = none) :
    postCart true b s = (.notFound "Product not found", s) ∧
    Response.status (postCart false b s).1 = 200 ∧
    CartLine.mk DEMO_USER (b.productId.getD "") (b.qty.getD 0) ∈
      (postCart false b s).2.cart := by
  refine ⟨postCart_db_notFound b s hv hu, ?_, ?_⟩
  · rw [postCart_mem b s hv]
    rfl
  · rw [postCart_mem b s hv]
    exact upsertLine_mem_self _ _ _

/-- Witness for the amended C1 at a concrete input. -/
theorem upsert_unknown_pid_backend_split_witness :
    postBodyInvalid ⟨some "zz", some 1⟩ = false ∧
    lookupProduct initStore.products "zz" = none ∧
    postCart true ⟨some "zz", some 1⟩ initStore =
      (.notFound "Product not found", initStore) :=
  ⟨by decide, by decide,
    (upsert_unknown_pid_backend_split initStore ⟨some "zz", some 1⟩
      (by decide) (by decide)).1⟩

/-! ## Claim C4 -/

/-- Claim C4 (counterexample): `qty = 3/2` (the JS number `1.5`,
written as an explicit `Rat` value) is NOT rejected with 400: the route
accepts it (200) and stores the non-integer qty. -/
theorem post_accepts_noninteger_qty :
    (postCart true ⟨some "p1", some ⟨3, 2, by decide, by decide⟩⟩ initStore).1.status = 200 ∧
    (postCart true ⟨some "p1", some ⟨3, 2, by decide, by decide⟩⟩ initStore).2.cart =
      [⟨DEMO_USER, "p1", ⟨3, 2, by decide, by decide⟩⟩] := by
  decide

/-- Claim C4 (amended): the upsert answers 400 exactly when productId
is missing/empty, qty is non-numeric, or qty ≤ 0 — positive
non-integer qtys are accepted — and a 400 never mutates the store. -/
theorem post_validation_400_characterization (u : Bool) (b : PostBody) (s : Store) :
    ((postCart u b s).1.status = 400 ↔
      (productIdFalsy b.productId = true ∨ b.qty = none ∨ b.qty.getD 0 ≤ 0)) ∧
    ((postCart u b s).1.status = 400 → (postCart u b s).2 = s) := by
  have hinv : postBodyInvalid b = true ↔
      (productIdFalsy b.productId = true ∨ b.qty = none ∨ b.qty.getD 0 ≤ 0) := by
    rcases b with ⟨p, q⟩
    rcases q with _ | q <;> simp [postBodyInvalid]
  by_cases hv : postBodyInvalid b = true
  · rw [postCart_invalid u b s hv]
    exact ⟨⟨fun _ => hinv.mp hv, fun _ => rfl⟩, fun _ => rfl⟩
  · have h200 : (postCart u b s).1.status ≠ 400 := by
      cases u
      · rw [postCart_mem b s (Bool.not_eq_true _ ▸ hv)]
        simp [Response.status]
      · rcases hopt : lookupProduct s.products (b.productId.getD "") with _ | p
        · rw [postCart_db_notFound b s (Bool.not_eq_true _ ▸ hv) hopt]
          simp [Response.status]
        · rw [postCart_db_found b s (Bool.not_eq_true _ ▸ hv) (by simp [hopt])]
          simp [Response.status]
    exact ⟨⟨fun h => absurd h h200, fun h => absurd (hinv.mpr h) hv⟩,
      fun h => absurd h h200⟩

/-- Witness for the amended C4 at a concrete input: `qty = 0` is a 400
and leaves the store unchanged. -/
theorem post_validation_400_witness :
    (postCart true ⟨some "p1", some 0⟩ initStore).1.status = 400 ∧
    (postCart true ⟨some "p1", some 0⟩ initStore).2 = initStore := by
  have h := post_validation_400_characterization true ⟨some "p1", some 0⟩ initStore
  have h400 : (postCart true ⟨some "p1", some 0⟩ initStore).1.status = 400 :=
    h.1.mpr (Or.inr (Or.inr (by decide)))
  exact ⟨h400, h.2 h400⟩

/-! ## Claim C2 -/

/-- Claim C2 (counterexample): the two backends are NOT equivalent on
every input: upserting the unknown product id `"zz"` answers 404 on the
durable backend but 200 on the in-memory one, with different states. -/
theorem backends_diverge_on_unknown_pid :
    (step true (.post ⟨some "zz", some 1⟩) initStore).1.status = 404 ∧
    (step false (.post ⟨some "zz", some 1⟩) initStore).1.status = 200 ∧
    step true (.post ⟨some "zz", some 1⟩) initStore ≠
      step false (.post ⟨some "zz", some 1⟩) initStore := by
  decide

/-- Claim C2 (amended): starting from any state with distinct catalog
ids and all demo cart lines resolvable, a sequence of operations none
of which upserts an unknown product id produces identical responses and
identical final state on the durable and in-memory backends. -/
theorem backends_equivalent_on_good_ops (s : Store) (ops : List Op)
    (hs : GoodState s) (ho : ∀ op ∈ ops, GoodOp s.products op) :
    runSeq true ops s = runSeq false ops s :=
  runSeq_eq ops s hs ho

/-- Witness for the amended C2 at a concrete state and operation list. -/
theorem backends_equivalent_witness :
    GoodState initStore ∧
    (∀ op ∈ ([.post ⟨some "p1", some 2⟩, .get, .remove "p1",
        .checkout "r" "t"] : List Op), GoodOp initStore.products op) ∧
    runSeq true [.post ⟨some "p1", some 2⟩, .get, .remove "p1",
        .checkout "r" "t"] initStore =
      runSeq false [.post ⟨some "p1", some 2⟩, .get, .remove "p1",
        .checkout "r" "t"] initStore :=
  ⟨by decide, by decide,
    backends_equivalent_on_good_ops initStore _ (by decide) (by decide)⟩

/-! ## Claim C3 -/

/-- Claim C3 (counterexample): in the in-memory backend a cart line
whose product is missing from the catalog is NOT silently dropped: the
view keeps a malformed item carrying only `qty`, and the total is `NaN`. -/
theorem dangling_line_not_dropped_mem :
    (getCartView false ⟨seedProducts, [⟨"demo", "ghost", 1⟩]⟩).items =
      [⟨none, none, none, none, 1⟩] ∧
    (getCartView false ⟨seedProducts, [⟨"demo", "ghost", 1⟩]⟩).total = none := by
  decide

/-- Claim C3 (amended): a demo cart line whose productId resolves to no
catalog product is dropped by the DURABLE backend's join (removing the
line does not change the items), while the IN-MEMORY backend keeps a
malformed item `{qty}` with `id`/`name`/`price`/`image` all undefined
and renders the whole total as `NaN`. -/
theorem dangling_line_dropped_db_kept_mem (s : Store) (c : CartLine)
    (hc : c ∈ s.cart) (hu : c.userId = DEMO_USER)
    (hmiss : lookupProduct s.products c.productId = none) :
    (getCartView true ⟨s.products, removeLine s.cart c.productId⟩).items =
      (getCartView true s).items ∧
    Item.mk none none none none c.qty ∈ (getCartView false s).items ∧
    (getCartView false s).total = none := by
  have hitem : Item.mk none none none none c.qty ∈ getCartMemItems s := by
    unfold getCartMemItems
    have hcdemo : c ∈ demoLines s.cart :=
      List.mem_filter.mpr ⟨hc, by simp [hu]⟩
    have hmem : memLookup s.products c.productId = none := by
      have hno := (lookupProduct_eq_none_iff s.products c.productId).mp hmiss
      exact memLookup_foldl_no_match s.products c.productId none
        (fun p hp => hno p hp)
    refine List.mem_map.mpr ⟨c, hcdemo, ?_⟩
    rw [hmem]
  refine ⟨getCartDbItems_removeLine s c.productId hmiss, hitem, ?_⟩
  exact totalOf_eq_none_of_mem _ _ hitem rfl

/-- Witness for the amended C3 at a concrete dangling line. -/
theorem dangling_line_witness :
    (⟨"demo", "ghost", (1 : ℚ)⟩ : CartLine) ∈
      (⟨seedProducts, [⟨"demo", "ghost", 1⟩]⟩ : Store).cart ∧
    lookupProduct seedProducts "ghost" = none ∧
    Item.mk none none none none 1 ∈
      (getCartView false ⟨seedProducts, [⟨"demo", "ghost", 1⟩]⟩).items :=
  ⟨by decide, by decide,
    (dangling_line_dropped_db_kept_mem ⟨seedProducts, [⟨"demo", "ghost", 1⟩]⟩
      ⟨"demo", "ghost", 1⟩ (by decide) (by decide) (by decide)).2.1⟩

/-! ## Claim C5 -/

/-- Claim C5 (confirmed): under the uniqueness invariant, a valid
upsert leaves exactly one line for `(DEMO_USER, pid)` carrying the new
qty (replacement, not addition), repeating the identical upsert does
not change the state, and every operation preserves the uniqueness
invariant — on either backend. -/
theorem upsert_replaces_unique (u : Bool) (s : Store) (pid : String) (q : ℚ)
    (hne : pid ≠ "") (hq : 0 < q)
    (hpid : (lookupProduct s.products pid).isSome = true)
    (huniq : UniqKeys s.cart) :
    ((postCart u ⟨some pid, some q⟩ s).2.cart.filter
        (fun c => c.userId = DEMO_USER ∧ c.productId = pid) =
      [⟨DEMO_USER, pid, q⟩]) ∧
    (postCart u ⟨some pid, some q⟩ ((postCart u ⟨some pid, some q⟩ s).2)).2 =
      (postCart u ⟨some pid, some q⟩ s).2 ∧
    (∀ (op : Op) (s' : Store), UniqKeys s'.cart →
      UniqKeys (step u op s').2.cart) := by
  have hv : postBodyInvalid ⟨some pid, some q⟩ = false := by
    simp [postBodyInvalid, productIdFalsy, hne, not_le.mpr hq]
  have hcart : (postCart u ⟨some pid, some q⟩ s).2 =
      ⟨s.products, upsertLine s.cart pid q⟩ := by
    cases u
    · rw [postCart_mem _ _ hv]
      rfl
    · rw [postCart_db_found _ _ hv hpid]
      rfl
  refine ⟨?_, ?_, fun op s' h => UniqKeys_step u op s' h⟩
  · rw [hcart]
    exact upsertLine_filter_key s.cart pid q huniq
  · rw [hcart]
    have hcart2 : (postCart u ⟨some pid, some q⟩
        (⟨s.products, upsertLine s.cart pid q⟩ : Store)).2 =
        ⟨s.products, upsertLine (upsertLine s.cart pid q) pid q⟩ := by
      cases u
      · rw [postCart_mem ⟨some pid, some q⟩
          (⟨s.products, upsertLine s.cart pid q⟩ : Store) hv]
        rfl
      · rw [postCart_db_found ⟨some pid, some q⟩
          (⟨s.products, upsertLine s.cart pid q⟩ : Store) hv hpid]
        rfl
    rw [hcart2, upsertLine_idem]

/-- Witness for C5 at a concrete upsert. -/
theorem upsert_replaces_unique_witness :
    (postCart true ⟨some "p1", some 2⟩ initStore).2.cart.filter
        (fun c => c.userId = DEMO_USER ∧ c.productId = "p1") =
      [⟨DEMO_USER, "p1", 2⟩] :=
  (upsert_replaces_unique true initStore "p1" 2 (by decide) (by decide)
    (by decide) (by decide)).1

/-! ## Claim C6 -/

/-- Claim C6 (confirmed): removing a productId with no matching demo
line succeeds with the very same response as a read would give and
leaves the store unchanged; the route's success shape is always the
200 cart view, matched or not. -/
theorem remove_nonexistent_noop (u : Bool) (s : Store) (pid : String)
    (h : ∀ c ∈ s.cart, ¬(c.userId = DEMO_USER ∧ c.productId = pid)) :
    deleteCart u pid s = (.ok (getCartView u s), s) ∧
    (∀ (s' : Store) (pid' : String), (deleteCart u pid' s').1.status = 200) := by
  constructor
  · have hrm : removeLine s.cart pid = s.cart :=
      List.filter_eq_self.mpr (fun c hc => decide_eq_true (h c hc))
    show (Response.ok (getCartView u ⟨s.products, removeLine s.cart pid⟩),
        (⟨s.products, removeLine s.cart pid⟩ : Store)) = _
    rw [hrm]
  · intro s' pid'
    rfl

/-- Witness for C6: removing `"p1"` when only another user has it. -/
theorem remove_nonexistent_noop_witness :
    (∀ c ∈ (⟨seedProducts, [⟨"alice", "p1", 1⟩]⟩ : Store).cart,
      ¬(c.userId = DEMO_USER ∧ c.productId = "p1")) ∧
    deleteCart true "p1" ⟨seedProducts, [⟨"alice", "p1", 1⟩]⟩ =
      (.ok (getCartView true ⟨seedProducts, [⟨"alice", "p1", 1⟩]⟩),
        ⟨seedProducts, [⟨"alice", "p1", 1⟩]⟩) :=
  ⟨by decide,
    (remove_nonexistent_noop true ⟨seedProducts, [⟨"alice", "p1", 1⟩]⟩ "p1"
      (by decide)).1⟩

/-! ## Claim C7 -/

/-- Claim C7 (confirmed): checkout returns a receipt whose total and
items are exactly the cart view immediately before the call, leaves
the demo cart empty (the next read is the empty view with total 0),
and an empty cart checks out as `items = []`, `total = 0` with no
error. -/
theorem checkout_snapshot_and_clear (u : Bool) (rid ts : String) (s : Store) :
    (checkoutRoute u rid ts s).1 =
      .receiptOk ⟨"rcpt_" ++ rid, (getCartView u s).total, (getCartView u s).items, ts⟩ ∧
    getCartView u (checkoutRoute u rid ts s).2 = ⟨[], some 0⟩ ∧
    demoLines (checkoutRoute u rid ts s).2.cart = [] ∧
    (demoLines s.cart = [] →
      (getCartView u s).items = [] ∧ (getCartView u s).total = some 0) := by
  have hclear : demoLines (checkoutRoute u rid ts s).2.cart = [] :=
    demoLines_clearLines s.cart
  refine ⟨rfl, getCartView_of_demoLines_nil u _ hclear, hclear, ?_⟩
  intro h
  have hv := getCartView_of_demoLines_nil u s h
  simp [hv]

/-- Witness for C7: the spec's `1999·1 + 699·2 = 3397` example, plus
the empty-cart case at the initial store. -/
theorem checkout_snapshot_and_clear_witness :
    (checkoutRoute true "x" "t"
        ⟨seedProducts, [⟨"demo", "p1", 1⟩, ⟨"demo", "p2", 2⟩]⟩).1 =
      .receiptOk ⟨"rcpt_x", some 3397,
        (getCartView true ⟨seedProducts, [⟨"demo", "p1", 1⟩, ⟨"demo", "p2", 2⟩]⟩).items,
        "t"⟩ ∧
    demoLines (checkoutRoute true "x" "t"
        ⟨seedProducts, [⟨"demo", "p1", 1⟩, ⟨"demo", "p2", 2⟩]⟩).2.cart = [] ∧
    (getCartView true initStore).items = [] ∧
    (getCartView true initStore).total = some 0 := by
  have h := checkout_snapshot_and_clear true "x" "t"
    ⟨seedProducts, [⟨"demo", "p1", 1⟩, ⟨"demo", "p2", 2⟩]⟩
  have hinit := (checkout_snapshot_and_clear true "a" "b" initStore).2.2.2 (by decide)
  have htot : (getCartView true
      ⟨seedProducts, [⟨"demo", "p1", 1⟩, ⟨"demo", "p2", 2⟩]⟩).total = some 3397 := by
    have h2 : (getCartView true
        ⟨seedProducts, [⟨"demo", "p1", 1⟩, ⟨"demo", "p2", 2⟩]⟩).total =
        some (0 + 1999 * 1 + 699 * 2) := rfl
    rw [h2]
    norm_num
  refine ⟨?_, h.2.2.1, hinit.1, hinit.2⟩
  rw [h.1, htot]
  rfl

/-! ## Claim C8 -/

/-- Claim C8 (confirmed): the view's total is exactly the JS fold of
`price × qty` over exactly the view's items — equal to the rational
sum `Σ price_i · qty_i` whenever every price is defined — and a read
after any operation is computed from the post-operation store state,
so no mutation is ever invisible to the next read. -/
theorem view_total_consistent (u : Bool) (s : Store) (op : Op) :
    (getCartView u s).total = totalOf (getCartView u s).items ∧
    ((∀ it ∈ (getCartView u s).items, it.price.isSome) →
      (getCartView u s).total =
        some (((getCartView u s).items.map
          (fun it => it.price.getD 0 * it.qty)).sum)) ∧
    (getCartRoute u (step u op s).2).1 = .ok (getCartView u (step u op s).2) := by
  refine ⟨rfl, ?_, rfl⟩
  intro h
  exact totalOf_eq_sum _ h

/-- Witness for C8 at a concrete store with one demo line. -/
theorem view_total_consistent_witness :
    (∀ it ∈ (getCartView true ⟨seedProducts, [⟨"demo", "p1", 1⟩]⟩).items,
      it.price.isSome) ∧
    (getCartView true ⟨seedProducts, [⟨"demo", "p1", 1⟩]⟩).total =
      some (((getCartView true ⟨seedProducts, [⟨"demo", "p1", 1⟩]⟩).items.map
        (fun it => it.price.getD 0 * it.qty)).sum) :=
  ⟨by decide,
    (view_total_consistent true ⟨seedProducts, [⟨"demo", "p1", 1⟩]⟩ Op.get).2.1
      (by decide)⟩

/-! ## Claim C9 -/

/-- Claim C9 (confirmed): no route reads or writes any cart line of a
user other than `DEMO_USER`: the sublist of non-demo lines (and the
catalog) is identical before and after every operation on either
backend. -/
theorem other_users_untouched (u : Bool) (op : Op) (s : Store) :
    (step u op s).2.cart.filter (fun c => c.userId ≠ DEMO_USER) =
      s.cart.filter (fun c => c.userId ≠ DEMO_USER) ∧
    (step u op s).2.products = s.products := by
  refine ⟨?_, step_products u op s⟩
  cases op with
  | post body =>
    by_cases hv : postBodyInvalid body = true
    · rw [step, postCart_invalid u body s hv]
    · cases u
      · rw [step, postCart_mem body s (Bool.not_eq_true _ ▸ hv)]
        exact upsertLine_filter_other s.cart _ _
      · rcases hopt : lookupProduct s.products (body.productId.getD "") with _ | p
        · rw [step, postCart_db_notFound body s (Bool.not_eq_true _ ▸ hv) hopt]
        · rw [step, postCart_db_found body s (Bool.not_eq_true _ ▸ hv) (by simp [hopt])]
          exact upsertLine_filter_other s.cart _ _
  | get => rfl
  | remove pid => exact removeLine_filter_other s.cart pid
  | checkout rid ts => exact clearLines_filter_other s.cart

/-! ## Claim C10 -/

/-- Claim C10 (confirmed): a successful `POST /api/cart` or
`DELETE /api/cart/:id` responds with exactly the cart view of the
post-mutation store — precisely what an immediately following
`GET /api/cart` returns. -/
theorem mutation_response_equals_get (u : Bool) (b : PostBody) (pid : String)
    (s : Store) :
    (∀ v, (postCart u b s).1 = .ok v →
      v = getCartView u (postCart u b s).2 ∧
      (getCartRoute u (postCart u b s).2).1 = .ok v) ∧
    (∀ v, (deleteCart u pid s).1 = .ok v →
      v = getCartView u (deleteCart u pid s).2 ∧
      (getCartRoute u (deleteCart u pid s).2).1 = .ok v) := by
  constructor
  · intro v hv
    have hok : (postCart u b s).1 = .ok (getCartView u (postCart u b s).2) := by
      by_cases hval : postBodyInvalid b = true
      · rw [postCart_invalid u b s hval] at hv
        cases hv
      · cases u
        · rw [postCart_mem b s (Bool.not_eq_true _ ▸ hval)]
        · rcases hopt : lookupProduct s.products (b.productId.getD "") with _ | p
          · rw [postCart_db_notFound b s (Bool.not_eq_true _ ▸ hval) hopt] at hv
            cases hv
          · rw [postCart_db_found b s (Bool.not_eq_true _ ▸ hval) (by simp [hopt])]
    have h2 : Response.ok (getCartView u (postCart u b s).2) = Response.ok v :=
      hok.symm.trans hv
    have hveq := (Response.ok.inj h2).symm
    exact ⟨hveq, by rw [hveq]; rfl⟩
  · intro v hv
    have hok : (deleteCart u pid s).1 =
        .ok (getCartView u (deleteCart u pid s).2) := rfl
    have h2 : Response.ok (getCartView u (deleteCart u pid s).2) = Response.ok v :=
      hok.symm.trans hv
    have hveq := (Response.ok.inj h2).symm
    exact ⟨hveq, by rw [hveq]; rfl⟩

/-- Witness for C10 at a concrete successful upsert. -/
theorem mutation_response_equals_get_witness :
    (postCart true ⟨some "p1", some 1⟩ initStore).1 =
      .ok (getCartView true (postCart true ⟨some "p1", some 1⟩ initStore).2) ∧
    (getCartRoute true (postCart true ⟨some "p1", some 1⟩ initStore).2).1 =
      .ok (getCartView true (postCart true ⟨some "p1", some 1⟩ initStore).2) := by
  have hv : (postCart true ⟨some "p1", some 1⟩ initStore).1 =
      .ok (getCartView true ⟨seedProducts, upsertLine [] "p1" 1⟩) := rfl
  have h := (mutation_response_equals_get true ⟨some "p1", some 1⟩ "p1" initStore).1
    _ hv
  refine ⟨?_, ?_⟩
  · rw [hv, h.1]
  · rw [h.2, h.1]
